import Mathlib

/-!
Shallow embedding of cargo-pgx `src/commands/install.rs`: the
artifact-assembly pipeline (path relocation, library-artifact location,
SQL fragment concatenation, upgrade-script staging, and install
destination computation).

Filesystem interaction is made explicit: directory enumerations become
lists of `Except Unit String` entries (an `Except.error` entry models a
`std::fs::DirEntry` whose `Result` is `Err`, which the code pattern-matches
with `if let Ok(..)`), and file reads become a function
`String → Option String` (`none` models an unreadable file, on which the
code aborts). Paths are Unix-style: an `absolute` flag plus the list of
normal components, mirroring `std::path::PathBuf` on the paths this code
manipulates.
-/

namespace Pgx

/-- A filesystem path: `absolute` is true when the path has a root
component; `components` are the normal components in order. Models
`std::path::PathBuf` for Unix paths made of normal components. -/
structure RPath where
  absolute : Bool
  components : List String
deriving DecidableEq

/-- `PathBuf::push` of a single normal component (a bare filename):
appends it to the component list. -/
def pushComponent (p : RPath) (c : String) : RPath :=
  { p with components := p.components ++ [c] }

/-- `PathBuf::push` of a whole path: an absolute argument replaces the
receiver, a relative one is appended component by component. -/
def pathJoin (base p : RPath) : RPath :=
  if p.absolute then p
  else { absolute := base.absolute, components := base.components ++ p.components }

/-- `PathBuf::new()`: the empty relative path. -/
def emptyPath : RPath :=
  { absolute := false, components := [] }

/-- `make_relative` (install.rs lines 211-222): a relative path is
returned unchanged; an absolute path is rebuilt by skipping the root
component and pushing every remaining component onto a fresh
`PathBuf::new()`. -/
def make_relative (path : RPath) : RPath :=
  if path.absolute = false then path
  else path.components.foldl pushComponent emptyPath

/-- Helper for `parsePath`: split a character list on the separator
character, keeping empty runs (filtered by the caller). -/
def splitSlashAux (cur : List Char) : List Char → List (List Char)
  | [] => [cur]
  | c :: rest =>
    if c = '/' then cur :: splitSlashAux [] rest
    else splitSlashAux (cur ++ [c]) rest

/-- Parse a Unix path string into an `RPath`: a leading slash marks the
path absolute, and the non-empty runs between slashes are the normal
components, as produced by `Path::components()`. -/
def parsePath (s : String) : RPath :=
  { absolute := s.data.head? == some '/'
  , components :=
      ((splitSlashAux [] s.data).filter (fun cs => !cs.isEmpty)).map
        (fun cs => { data := cs }) }

/-- Rust `str::starts_with` on strings, as a prefix test on the
character lists. -/
def strStartsWith (s pat : String) : Bool :=
  pat.data.isPrefixOf s.data

/-- Rust `str::ends_with` on strings, as a suffix test on the character
lists. -/
def strEndsWith (s pat : String) : Bool :=
  pat.data.isSuffixOf s.data

/-- Substring containment on character lists: `pat` occurs starting at
some position of the list. -/
def subListAt (pat : List Char) : List Char → Bool
  | [] => pat.isEmpty
  | c :: rest => pat.isPrefixOf (c :: rest) || subListAt pat rest

/-- Rust `str::contains` on strings: substring containment. -/
def strContains (s pat : String) : Bool :=
  subListAt pat.data s.data

/-- The fatal errors of the embedded part of the pipeline: the
`exit_with_error!("library file not found ...")` of `find_library_file`
and the `expect("could not open ...")` abort of `copy_sql_files`. -/
inductive InstallError where
  | artifactNotFound
  | fragmentReadError (file : String)
deriving DecidableEq

/-- The acceptance predicate of `find_library_file` (install.rs lines
179-184): the filename contains `extname` as a substring, starts with
`lib`, and ends with `.so`, `.dylib` or `.dll`. -/
def libraryMatches (extname filename : String) : Bool :=
  strContains filename extname && strStartsWith filename "lib" &&
    (strEndsWith filename ".so" || strEndsWith filename ".dylib" ||
      strEndsWith filename ".dll")

/-- `find_library_file` (install.rs lines 164-191) from the enumeration
of the profile's target directory onward: entries whose `Result` is `Err`
are skipped by the `if let Ok(f)` pattern; the first `Ok` entry whose
filename satisfies `libraryMatches` is returned as `target_dir`
joined with the filename (`f.path()`); if the whole enumeration produces
no match the function aborts with the library-not-found error. -/
def find_library_file (target_dir : RPath) (extname : String) :
    List (Except Unit String) → Except InstallError RPath
  | [] => Except.error InstallError.artifactNotFound
  | Except.error _ :: rest => find_library_file target_dir extname rest
  | Except.ok filename :: rest =>
    if libraryMatches extname filename then
      Except.ok (pushComponent target_dir filename)
    else find_library_file target_dir extname rest

/-- One fragment's contribution to the versioned script (install.rs
lines 136-145): the three-line banner, the raw contents, then three
newlines. -/
def fragmentBlock (path contents : String) : String :=
  "--\n" ++ "-- " ++ path ++ "\n" ++ "--\n" ++ contents ++ "\n\n\n"

/-- The concatenation loop of `copy_sql_files` (install.rs lines
127-146): each load-order entry `file` is read from `sql/{file}`; an
unreadable file aborts the loop with an error naming that path, keeping
the bytes written so far; otherwise the fragment's block is appended and
the loop continues. The result is the written bytes paired with the
abort, if any. -/
def assemble (readFile : String → Option String) :
    List String → String → String × Option InstallError
  | [], acc => (acc, none)
  | file :: rest, acc =>
    match readFile ("sql/" ++ file) with
    | none => (acc, some (InstallError.fragmentReadError ("sql/" ++ file)))
    | some contents =>
      assemble readFile rest (acc ++ fragmentBlock ("sql/" ++ file) contents)

/-- The staging predicate of `copy_sql_files` (install.rs line 153): the
filename starts with `{extname}--` and ends with `.sql`. -/
def upgradeMatches (extname filename : String) : Bool :=
  strStartsWith filename (extname ++ "--") && strEndsWith filename ".sql"

/-- The destination computed for a staged upgrade script (install.rs
lines 154-156): a fresh `PathBuf::new()` with `extdir` then the filename
pushed onto it. Note that `base_directory` is not pushed. -/
def upgradeScriptDest (extdir : RPath) (filename : String) : RPath :=
  pushComponent (pathJoin emptyPath extdir) filename

/-- The staging loop of `copy_sql_files` (install.rs lines 149-161):
entries whose `Result` is `Err` are skipped by `if let Ok(sql)`; each
`Ok` entry whose filename satisfies `upgradeMatches` is copied to
`upgradeScriptDest`. The result lists the (filename, destination) pairs
in enumeration order. -/
def stage_upgrades (extname : String) (extdir : RPath) :
    List (Except Unit String) → List (String × RPath)
  | [] => []
  | Except.error _ :: rest => stage_upgrades extname extdir rest
  | Except.ok filename :: rest =>
    if upgradeMatches extname filename then
      (filename, upgradeScriptDest extdir filename) ::
        stage_upgrades extname extdir rest
    else stage_upgrades extname extdir rest

/-- The control-file destination of `install_extension` (install.rs
lines 33-36): `base_directory` with `extdir` then the control filename
pushed onto it. -/
def controlFileDest (base extdir : RPath) (control_file : String) : RPath :=
  pushComponent (pathJoin base extdir) control_file

/-- The shared-library destination of `install_extension` (install.rs
lines 40-43): `base_directory` with `pkgdir` then `{extname}.so` pushed
onto it. -/
def sharedLibraryDest (base pkgdir : RPath) (extname : String) : RPath :=
  pushComponent (pathJoin base pkgdir) (extname ++ ".so")

/-- The versioned-script destination of `copy_sql_files` (install.rs
lines 115-117): `base_directory` with `extdir` then
`{extname}--{version}.sql` pushed onto it. -/
def versionedScriptDest (base extdir : RPath) (extname version : String) : RPath :=
  pushComponent (pathJoin base extdir) (extname ++ "--" ++ version ++ ".sql")

/-- Concatenation of a list of strings in order. -/
def concatAll : List String → String
  | [] => ""
  | s :: rest => s ++ concatAll rest

/-- The observable output of one run of `copy_sql_files` (install.rs
lines 113-162): the bytes written to the versioned script, the abort
raised while writing it (if any), and the staged upgrade copies. -/
structure CopySqlOutput where
  script : String
  scriptError : Option InstallError
  staged : List (String × RPath)
deriving DecidableEq

/-- `copy_sql_files` (install.rs lines 113-162): assemble the versioned
script from the load order, then stage the upgrade scripts from the
enumeration of the `sql/` directory. -/
def copy_sql_files (extname : String) (extdir : RPath)
    (load_order : List String) (readFile : String → Option String)
    (entries : List (Except Unit String)) : CopySqlOutput :=
  { script := (assemble readFile load_order "").1
  , scriptError := (assemble readFile load_order "").2
  , staged := stage_upgrades extname extdir entries }

/-! Helper lemmas -/

theorem foldl_pushComponent (b : Bool) (cs l : List String) :
    l.foldl pushComponent (RPath.mk b cs) = RPath.mk b (cs ++ l) := by
  induction l generalizing cs with
  | nil => simp
  | cons a l ih =>
    simp only [List.foldl_cons, pushComponent]
    rw [ih]
    simp

theorem make_relative_eq (p : RPath) :
    make_relative p = if p.absolute then RPath.mk false p.components else p := by
  obtain ⟨b, cs⟩ := p
  cases b with
  | false => simp [make_relative]
  | true => simp [make_relative, emptyPath, foldl_pushComponent false [] cs]

theorem find_library_file_ok_eq (d : RPath) (extname : String)
    (entries : List String) :
    find_library_file d extname (entries.map Except.ok) =
      (match entries.find? (libraryMatches extname) with
       | some f => Except.ok (pushComponent d f)
       | none => Except.error InstallError.artifactNotFound) := by
  induction entries with
  | nil => rfl
  | cons f rest ih =>
    simp only [List.map_cons, find_library_file, List.find?_cons]
    cases h : libraryMatches extname f with
    | false => simpa [h] using ih
    | true => simp [h]

theorem find_library_file_skip (d : RPath) (extname : String)
    (entries : List (Except Unit String)) :
    find_library_file d extname entries =
      find_library_file d extname
        ((entries.filterMap Except.toOption).map Except.ok) := by
  induction entries with
  | nil => rfl
  | cons e rest ih =>
    cases e with
    | error u => simpa [find_library_file, Except.toOption] using ih
    | ok f =>
      simp only [find_library_file, List.filterMap_cons, Except.toOption,
        List.map_cons]
      cases h : libraryMatches extname f with
      | false => simpa [h] using ih
      | true => simp [h]

theorem stage_upgrades_skip (extname : String) (extdir : RPath)
    (entries : List (Except Unit String)) :
    stage_upgrades extname extdir entries =
      stage_upgrades extname extdir
        ((entries.filterMap Except.toOption).map Except.ok) := by
  induction entries with
  | nil => rfl
  | cons e rest ih =>
    cases e with
    | error u => simpa [stage_upgrades, Except.toOption] using ih
    | ok f =>
      simp only [stage_upgrades, List.filterMap_cons, Except.toOption,
        List.map_cons]
      cases h : upgradeMatches extname f with
      | false => simpa [h] using ih
      | true => simp [h, ih]

theorem stage_upgrades_ok_eq (extname : String) (extdir : RPath)
    (entries : List String) :
    stage_upgrades extname extdir (entries.map Except.ok) =
      (entries.filter (fun f => upgradeMatches extname f)).map
        (fun f => (f, upgradeScriptDest extdir f)) := by
  induction entries with
  | nil => rfl
  | cons f rest ih =>
    simp only [List.map_cons, stage_upgrades, List.filter_cons]
    cases h : upgradeMatches extname f with
    | false => simpa [h] using ih
    | true => simp [h, ih]

theorem assemble_append (readFile : String → Option String)
    (contents : String → String) (pre rest : List String) (acc : String)
    (h : ∀ g ∈ pre, readFile ("sql/" ++ g) = some (contents ("sql/" ++ g))) :
    assemble readFile (pre ++ rest) acc =
      assemble readFile rest
        (acc ++ concatAll (pre.map
          (fun f => fragmentBlock ("sql/" ++ f) (contents ("sql/" ++ f))))) := by
  induction pre generalizing acc with
  | nil => simp [concatAll, String.append_empty]
  | cons g pre ih =>
    have hg := h g (by simp)
    have hpre : ∀ x ∈ pre, readFile ("sql/" ++ x) = some (contents ("sql/" ++ x)) :=
      fun x hx => h x (List.mem_cons_of_mem g hx)
    simp only [List.cons_append, assemble, hg, List.map_cons, concatAll]
    rw [List.append_eq,
      ih (acc ++ fragmentBlock ("sql/" ++ g) (contents ("sql/" ++ g))) hpre,
      String.append_assoc]

/-! Claim theorems -/

/-- Claim C8: path relocation is idempotent: for every path `p`,
`make_relative (make_relative p) = make_relative p`. -/
theorem C8_make_relative_idempotent (p : RPath) :
    make_relative (make_relative p) = make_relative p := by
  cases h : p.absolute with
  | false => simp [make_relative_eq, h]
  | true => simp [make_relative_eq, h]

/-- Claim C8 witness: idempotence at the concrete absolute path
`/usr/lib`. -/
theorem C8_make_relative_idempotent_witness :
    make_relative (make_relative (parsePath "/usr/lib")) =
      make_relative (parsePath "/usr/lib") :=
  C8_make_relative_idempotent (parsePath "/usr/lib")

/-- Claim C9: relocation returns a relative input unchanged and, for an
absolute input, strips exactly the root component, keeping the remaining
components in order; concretely, `/usr/lib/pg/ext` relocates to
`usr/lib/pg/ext` and `foo/bar` is returned unchanged. -/
theorem C9_make_relative_spec :
    (∀ p : RPath,
      make_relative p = if p.absolute then RPath.mk false p.components else p) ∧
    make_relative (parsePath "/usr/lib/pg/ext") = parsePath "usr/lib/pg/ext" ∧
    make_relative (parsePath "foo/bar") = parsePath "foo/bar" :=
  ⟨make_relative_eq, by decide, by decide⟩

/-- Claim C10: the result of `make_relative` is always a relative path
(the bare root relocates to the empty relative path), so joining it onto
a staging root always extends the root and never replaces it through an
absolute component. -/
theorem C10_make_relative_always_relative :
    (∀ p : RPath, (make_relative p).absolute = false) ∧
    make_relative (parsePath "/") = emptyPath ∧
    (∀ base p : RPath,
      pathJoin base (make_relative p) =
        RPath.mk base.absolute
          (base.components ++ (make_relative p).components)) := by
  have habs : ∀ p : RPath, (make_relative p).absolute = false := by
    intro p
    rw [make_relative_eq p]
    cases h : p.absolute with
    | false =>
      obtain ⟨b, cs⟩ := p
      simp at h
      simp [h]
    | true => simp
  refine ⟨habs, by decide, ?_⟩
  intro base p
  simp [pathJoin, habs p]

/-- Claim C1: the destination computed for a staged upgrade script does
NOT lie under the staging root: at extension name `foo`, relocated
extension-share directory `usr/share/postgresql/extension`, staging root
`/staging` and entry `foo--1.0--1.1.sql`, the code stages the file at
the relative path `usr/share/postgresql/extension/foo--1.0--1.1.sql`,
which differs from the staging-root-rebased destination that the
control file receives. -/
theorem C1_upgrade_dest_ignores_staging_root :
    stage_upgrades "foo" (parsePath "usr/share/postgresql/extension")
        [Except.ok "foo--1.0--1.1.sql"] =
      [("foo--1.0--1.1.sql",
        RPath.mk false
          ["usr", "share", "postgresql", "extension", "foo--1.0--1.1.sql"])] ∧
    upgradeScriptDest (parsePath "usr/share/postgresql/extension")
        "foo--1.0--1.1.sql" ≠
      pushComponent
        (pathJoin (parsePath "/staging")
          (parsePath "usr/share/postgresql/extension"))
        "foo--1.0--1.1.sql" ∧
    controlFileDest (parsePath "/staging")
        (parsePath "usr/share/postgresql/extension") "foo.control" =
      RPath.mk true
        ["staging", "usr", "share", "postgresql", "extension", "foo.control"] := by
  refine ⟨by decide, by decide, by decide⟩

/-- Claim C2 counterexample: a directory entry of the build-output
directory that yields an error during enumeration does not abort the
pipeline; `find_library_file` skips it and continues, returning a
success. -/
theorem C2_counterexample_entry_error_skipped :
    ¬ (∀ (entries : List (Except Unit String)),
        (∃ e ∈ entries, e = Except.error ()) →
        ∃ err, find_library_file emptyPath "foo" entries =
          Except.error err) := by
  intro h
  obtain ⟨err, heq⟩ :=
    h [Except.error (), Except.ok "libfoo.so"]
      ⟨Except.error (), List.mem_cons_self _ _, rfl⟩
  exact Except.noConfusion heq

/-- Claim C2 amended: errors from opening a directory and all other
modelled pipeline failures abort, but a directory entry whose `Result`
is an error is silently skipped by both enumeration loops: the outcome
is exactly as if the erroneous entries were absent. -/
theorem C2_entry_errors_silently_skipped (extname : String)
    (d extdir : RPath) (entries : List (Except Unit String)) :
    find_library_file d extname entries =
      find_library_file d extname
        ((entries.filterMap Except.toOption).map Except.ok) ∧
    stage_upgrades extname extdir entries =
      stage_upgrades extname extdir
        ((entries.filterMap Except.toOption).map Except.ok) :=
  ⟨find_library_file_skip d extname entries,
    stage_upgrades_skip extname extdir entries⟩

/-- Claim C3: the assembled versioned script is the concatenation, in
exactly the manifest's order, of one block per fragment (three-line
banner, raw contents, three newlines); in particular for the fragments
`a.sql` and `b.sql` the block of `a.sql` appears strictly before the
block of `b.sql`. -/
theorem C3_assembly_order (load_order : List String)
    (contents : String → String) :
    assemble (fun p => some (contents p)) load_order "" =
      (concatAll (load_order.map
        (fun f => fragmentBlock ("sql/" ++ f) (contents ("sql/" ++ f)))),
       none) ∧
    assemble
        (fun p => if p = "sql/a.sql" then some "A;" else
          if p = "sql/b.sql" then some "B;" else none)
        ["a.sql", "b.sql"] "" =
      (fragmentBlock "sql/a.sql" "A;" ++ fragmentBlock "sql/b.sql" "B;",
       none) := by
  constructor
  · rw [show load_order = load_order ++ [] by simp,
      assemble_append (fun p => some (contents p)) contents load_order [] ""
        (fun g _ => rfl)]
    simp [assemble, String.empty_append]
  · decide

/-- Claim C4: assembly is deterministic: the versioned-script bytes and
the abort produced by `copy_sql_files` are a function of the load order
and the fragment contents alone, identical across runs and independent
of the filesystem enumeration handed to the staging loop. -/
theorem C4_assembly_deterministic (extname : String) (extdir : RPath)
    (load_order : List String) (readFile : String → Option String)
    (entries1 entries2 : List (Except Unit String)) :
    (copy_sql_files extname extdir load_order readFile entries1).script =
      (copy_sql_files extname extdir load_order readFile entries2).script ∧
    (copy_sql_files extname extdir load_order readFile entries1).scriptError =
      (copy_sql_files extname extdir load_order readFile entries2).scriptError :=
  ⟨rfl, rfl⟩

/-- Claim C5: artifact location returns the first enumerated entry whose
filename contains `extname`, starts with `lib` and ends with `.so`,
`.dylib` or `.dll`, and fails with the artifact-not-found error exactly
when no entry satisfies the predicate; concretely
`[libfoo.so, libfoo.d, libbar.so]` with `foo` yields `libfoo.so` and
`[libbar.so]` alone fails. -/
theorem C5_find_library_first_match (d : RPath) (extname : String)
    (entries : List String) :
    find_library_file d extname (entries.map Except.ok) =
      (match entries.find? (libraryMatches extname) with
       | some f => Except.ok (pushComponent d f)
       | none => Except.error InstallError.artifactNotFound) ∧
    (find_library_file d extname (entries.map Except.ok) =
        Except.error InstallError.artifactNotFound ↔
      ∀ f ∈ entries, libraryMatches extname f = false) ∧
    find_library_file d "foo"
        [Except.ok "libfoo.so", Except.ok "libfoo.d", Except.ok "libbar.so"] =
      Except.ok (pushComponent d "libfoo.so") ∧
    find_library_file d "foo" [Except.ok "libbar.so"] =
      Except.error InstallError.artifactNotFound := by
  refine ⟨find_library_file_ok_eq d extname entries, ?_, rfl, rfl⟩
  rw [find_library_file_ok_eq d extname entries]
  cases hf : entries.find? (libraryMatches extname) with
  | none =>
    simp only [List.find?_eq_none] at hf
    simpa using hf
  | some f =>
    have hmem := List.find?_some hf
    have hin := List.mem_of_find?_eq_some hf
    simp only []
    constructor
    · intro habs
      exact Except.noConfusion habs
    · intro hall
      rw [hall f hin] at hmem
      exact Bool.noConfusion hmem

/-- Claim C6: when the load order names a fragment whose file is
unreadable, assembly aborts with a fragment-read error naming that file,
after writing exactly the blocks of the fragments preceding it: nothing
from any later fragment is written. -/
theorem C6_missing_fragment_aborts (pre post : List String)
    (missing : String) (readFile : String → Option String)
    (contents : String → String)
    (hpre : ∀ g ∈ pre,
      readFile ("sql/" ++ g) = some (contents ("sql/" ++ g)))
    (hmiss : readFile ("sql/" ++ missing) = none) :
    assemble readFile (pre ++ missing :: post) "" =
      (concatAll (pre.map
        (fun f => fragmentBlock ("sql/" ++ f) (contents ("sql/" ++ f)))),
       some (InstallError.fragmentReadError ("sql/" ++ missing))) := by
  rw [assemble_append readFile contents pre (missing :: post) "" hpre]
  simp [assemble, hmiss, String.empty_append]

/-- Claim C6 witness: with `a.sql` readable and `missing.sql` absent,
assembly of `[a.sql, missing.sql, z.sql]` writes the block of `a.sql`
only and aborts naming `sql/missing.sql`. -/
theorem C6_missing_fragment_aborts_witness :
    (∀ g ∈ ["a.sql"],
      (fun p => if p = "sql/a.sql" then some "A;" else none) ("sql/" ++ g) =
        some ((fun _ => "A;") ("sql/" ++ g))) ∧
    (fun p => if p = "sql/a.sql" then some "A;" else none)
        ("sql/" ++ "missing.sql") = none ∧
    assemble (fun p => if p = "sql/a.sql" then some "A;" else none)
        (["a.sql"] ++ "missing.sql" :: ["z.sql"]) "" =
      (concatAll (["a.sql"].map
        (fun f => fragmentBlock ("sql/" ++ f) ((fun _ => "A;") ("sql/" ++ f)))),
       some (InstallError.fragmentReadError ("sql/" ++ "missing.sql"))) :=
  ⟨by decide, by decide,
    C6_missing_fragment_aborts ["a.sql"] ["z.sql"] "missing.sql"
      (fun p => if p = "sql/a.sql" then some "A;" else none)
      (fun _ => "A;") (by decide) (by decide)⟩

/-- Claim C7: upgrade staging copies exactly the enumerated entries
whose names start with `{extname}--` and end with `.sql`, in enumeration
order, each to its computed destination; non-matching entries such as
`helpers.sql` are not copied. -/
theorem C7_stage_upgrades_exact_set (extname : String) (extdir : RPath)
    (entries : List String) :
    (stage_upgrades extname extdir (entries.map Except.ok)).map Prod.fst =
      entries.filter (fun f => upgradeMatches extname f) ∧
    stage_upgrades extname extdir (entries.map Except.ok) =
      (entries.filter (fun f => upgradeMatches extname f)).map
        (fun f => (f, upgradeScriptDest extdir f)) ∧
    (stage_upgrades "foo" extdir
        (["foo--1.0--1.1.sql", "helpers.sql", "foo--1.1--1.2.sql"].map
          Except.ok)).map Prod.fst =
      ["foo--1.0--1.1.sql", "foo--1.1--1.2.sql"] := by
  refine ⟨?_, stage_upgrades_ok_eq extname extdir entries, rfl⟩
  rw [stage_upgrades_ok_eq extname extdir entries, List.map_map]
  exact List.map_id _

end Pgx
